import Mathlib

/-!
Verification of the Tilt rendering engine core (Renderer.js and Math.js).

The JavaScript sources are embedded shallowly:

* JS numbers are idealised as rationals (`ℚ`); where a computation can
  produce NaN (failed string parses) the component type is `Option ℚ`
  with `none` standing for NaN.
* JS 32-bit bitwise operators are modelled exactly: operands are reduced
  to the signed 32-bit range before the bit operation (`jsToInt32`).
* The renderer's mutable state (matrix stack, draw-state colors, the GL
  draw-call stream) is explicit state passing over the `RState` record.
* The shared color-string cache of `Tilt.Math.hex2rgba` mutates arrays
  that callers may alias, so that part of the system is modelled with an
  explicit heap: an array is a reference (`ℕ`) into a store, and the
  cache maps color strings to references.
* The vendored gl-matrix library (`vec3.*` / `mat4.*`) is not part of
  the excerpted sources; those helpers are modelled from the spec, as
  pure vector/matrix operations, and are marked as such below.

The file is organised as definitions first (the embedding), then the
theorems settling the claims.
-/

namespace Tilt

/-! ## JavaScript 32-bit integer semantics (Math.js, nextPowerOfTwo) -/

/-- JS ToInt32: reduce a number modulo 2^32 into the signed range
[-2^31, 2^31). Applied by JS to each operand of a bitwise operator. -/
def jsToInt32 (x : ℤ) : ℤ := (x + 2 ^ 31) % 2 ^ 32 - 2 ^ 31

/-- JS signed (sign-propagating) right shift `x >> i`: arithmetic shift of
the 32-bit value, i.e. floor division by 2^i. -/
def jsShr (x : ℤ) (i : ℕ) : ℤ := Int.fdiv (jsToInt32 x) (2 ^ i)

/-- JS bitwise or `x | y` on 32-bit operands (two's complement). -/
def jsOr (x y : ℤ) : ℤ := Int.lor (jsToInt32 x) (jsToInt32 y)

/-- One iteration of the loop body `x = x | x >> i` of nextPowerOfTwo. -/
def jsSpreadStep (x : ℤ) (i : ℕ) : ℤ := jsOr x (jsShr x i)

/-- Embeds `Tilt.Math.nextPowerOfTwo` (Math.js lines 72-80):
`--x; for (i = 1; i < 32; i <<= 1) { x = x | x >> i; } return x + 1;`.
The loop body runs exactly for i = 1, 2, 4, 8, 16. The decrement and the
final increment are plain JS number arithmetic; the `|` and `>>` inside
the loop are the 32-bit operators. -/
def nextPowerOfTwo (x : ℤ) : ℤ :=
  jsSpreadStep (jsSpreadStep (jsSpreadStep (jsSpreadStep (jsSpreadStep (x - 1) 1) 2) 4) 8) 16 + 1

/-- One round of the bit-spreading loop, on natural numbers. -/
def spreadStep (a i : ℕ) : ℕ := a ||| (a >>> i)

/-- The five rounds of the bit-spreading loop on a natural number. -/
def spreadBits (m : ℕ) : ℕ :=
  spreadStep (spreadStep (spreadStep (spreadStep (spreadStep m 1) 2) 4) 8) 16

/-- Coverage invariant for the spreading loop: bit j of the accumulator is
set exactly when some bit of the input within distance c above j is set. -/
def SpreadCovers (m a c : ℕ) : Prop :=
  ∀ j : ℕ, a.testBit j = true ↔ ∃ d : ℕ, d ≤ c ∧ m.testBit (j + d) = true

end Tilt

namespace Tilt.Renderer

/-! ## The renderer state machine (Renderer.js)

The model view and projection matrices are 4x4 rational matrices in the
column-vector convention (`Matrix.mulVec` applies a matrix to a vector,
matching gl-matrix's column-major arrays). The unit-geometry buffers
(`Tilt.Rectangle`, `Tilt.Cube`, ...) are constructed by library classes
outside the excerpted sources, so their contents are left arbitrary: they
are fields of the renderer state, and the theorems quantify over them. -/

/-- 4x4 rational matrix, the model of a gl-matrix mat4. -/
abbrev M4 := Matrix (Fin 4) (Fin 4) ℚ

/-- Modelled from the spec: `mat4.translate(m, [x,y,z])` of the missing
gl-matrix library right-multiplies m by the elementary translation matrix
(spec 4.1: translate is a convenience composition equivalent to transform
with the corresponding elementary matrix). -/
def translationMatrix (x y z : ℚ) : M4 :=
  !![1, 0, 0, x; 0, 1, 0, y; 0, 0, 1, z; 0, 0, 0, 1]

/-- Modelled from the spec: `mat4.scale(m, [x,y,z])` of the missing
gl-matrix library right-multiplies m by the elementary scale matrix. -/
def scaleMatrix (x y z : ℚ) : M4 :=
  !![x, 0, 0, 0; 0, y, 0, 0; 0, 0, z, 0; 0, 0, 0, 1]

/-- An rgba color vector with normalized 0..1 components, as stored in
`tintColor` / `fillColor` / `strokeColor`. Index 3 of the JS array is the
field `a`. -/
structure Color where
  r : ℚ
  g : ℚ
  b : ℚ
  a : ℚ
deriving DecidableEq

/-- WebGL topology enums, copied onto the renderer at construction
(this.TRIANGLES = this.gl.TRIANGLES and so on). -/
inductive DrawMode where
  | POINTS
  | LINES
  | LINE_STRIP
  | LINE_LOOP
  | TRIANGLES
  | TRIANGLE_STRIP
  | TRIANGLE_FAN
deriving DecidableEq

/-- The two built-in shader programs (this.colorShader, this.textureShader). -/
inductive ProgId where
  | colorShader
  | textureShader
deriving DecidableEq

/-- Modelled from the spec: a `Tilt.VertexBuffer` (class not in the
excerpt) wraps a flat float array with a component stride; its numItems is
the number of vertices (spec 6: create vertex buffer from flat float array
plus component stride, a handle with item count). -/
structure VertexBuffer where
  data : List ℚ
  itemSize : ℕ
deriving DecidableEq

/-- Number of vertices described by the buffer. -/
def VertexBuffer.numItems (b : VertexBuffer) : ℕ := b.data.length / b.itemSize

/-- Modelled from the spec: a `Tilt.IndexBuffer` wraps an unsigned-short
array; its numItems is the index count (spec 6). -/
structure IndexBuffer where
  data : List ℕ
deriving DecidableEq

/-- Number of indices held by the buffer. -/
def IndexBuffer.numItems (b : IndexBuffer) : ℕ := b.data.length

/-- A texture handle with its native dimensions (used by `image` to
default the width/height). -/
structure Texture where
  id : ℕ
  width : ℚ
  height : ℚ
deriving DecidableEq

/-- One backend draw call as issued by `drawVertices` (gl.drawArrays) or
`drawIndexedVertices` (gl.drawElements), together with the shader
program, vertex buffer and uniform color bound at the time of the call. -/
inductive GLDraw where
  | arrays (mode : DrawMode) (first count : ℕ)
      (vb : Option VertexBuffer) (prog : Option ProgId) (color : Option Color)
  | elements (mode : DrawMode) (indices : IndexBuffer)
      (vb : Option VertexBuffer) (prog : Option ProgId) (color : Option Color)
deriving DecidableEq

/-- The unit rectangle object (this.rectangle). `rectMode`/`imageMode`
store their mode string on this object; both start out undefined. -/
structure RectGeometry where
  vertices : VertexBuffer
  texCoord : VertexBuffer
  rectModeValue : Option String
  imageModeValue : Option String
deriving DecidableEq

/-- The unit rectangle wireframe object (this.rectangleWireframe). -/
structure WireframeGeometry where
  vertices : VertexBuffer
deriving DecidableEq

/-- The unit cube object (this.cube). -/
structure CubeGeometry where
  vertices : VertexBuffer
  texCoord : VertexBuffer
  indices : IndexBuffer
deriving DecidableEq

/-- The unit cube wireframe object (this.cubeWireframe). -/
structure CubeWireframeGeometry where
  vertices : VertexBuffer
  indices : IndexBuffer
deriving DecidableEq

/-- The renderer state: the mutable fields of a `Tilt.Renderer` instance
that the embedded operations read or write, plus the stream `draws` of
backend draw calls issued so far (the observable output). -/
structure RState where
  mvMatrix : M4
  mvMatrixStack : List M4
  projMatrix : M4
  tintColor : Color
  fillColor : Color
  strokeColor : Color
  rectangle : RectGeometry
  rectangleWireframe : WireframeGeometry
  cube : CubeGeometry
  cubeWireframe : CubeWireframeGeometry
  boundProgram : Option ProgId
  boundVertexBuffer : Option VertexBuffer
  boundColor : Option Color
  draws : List GLDraw

/-- Embeds `pushMatrix` (Renderer.js lines 292-294): push a copy of the
current model view matrix. JS pushes at the array's end; here the list
head is the top of the stack. -/
def pushMatrix (s : RState) : RState :=
  { s with mvMatrixStack := s.mvMatrix :: s.mvMatrixStack }

/-- Embeds `popMatrix` (Renderer.js lines 300-304): if the stack is
nonempty, replace the current model view matrix by the top and drop it;
otherwise do nothing. -/
def popMatrix (s : RState) : RState :=
  match s.mvMatrixStack with
  | [] => s
  | top :: rest => { s with mvMatrix := top, mvMatrixStack := rest }

/-- Embeds `origin`: reset the model view matrix to identity. -/
def origin (s : RState) : RState := { s with mvMatrix := 1 }

/-- Embeds `transform`: right-multiply the model view matrix. -/
def transform (matrix : M4) (s : RState) : RState :=
  { s with mvMatrix := s.mvMatrix * matrix }

/-- Embeds `translate(x, y, z)`: mat4.translate on the model view. The JS
default `z || 0` is made explicit at the call sites. -/
def translate (x y z : ℚ) (s : RState) : RState :=
  { s with mvMatrix := s.mvMatrix * translationMatrix x y z }

/-- Embeds `scale(x, y, z)`: mat4.scale on the model view. -/
def scale (x y z : ℚ) (s : RState) : RState :=
  { s with mvMatrix := s.mvMatrix * scaleMatrix x y z }

/-- Embeds `useColorShader`: select the color program and bind the vertex
buffer, the current matrices and the uniform color. -/
def useColorShader (verticesBuffer : VertexBuffer) (color : Color) (s : RState) : RState :=
  { s with boundProgram := some ProgId.colorShader,
           boundVertexBuffer := some verticesBuffer,
           boundColor := some color }

/-- Embeds `useTextureShader`: select the texture program and bind the
vertex and texture-coordinate buffers, the matrices, the uniform color
and the sampler. -/
def useTextureShader (verticesBuffer texCoordBuffer : VertexBuffer) (color : Color)
    (t : Texture) (s : RState) : RState :=
  { s with boundProgram := some ProgId.textureShader,
           boundVertexBuffer := some verticesBuffer,
           boundColor := some color }

/-- Embeds `drawVertices` (gl.drawArrays(drawMode, 0, count)). -/
def drawVertices (drawMode : DrawMode) (count : ℕ) (s : RState) : RState :=
  { s with draws := s.draws ++
      [GLDraw.arrays drawMode 0 count s.boundVertexBuffer s.boundProgram s.boundColor] }

/-- Embeds `drawIndexedVertices` (bind the index buffer, then
gl.drawElements over its full extent). -/
def drawIndexedVertices (drawMode : DrawMode) (indicesBuffer : IndexBuffer) (s : RState) : RState :=
  { s with draws := s.draws ++
      [GLDraw.elements drawMode indicesBuffer s.boundVertexBuffer s.boundProgram s.boundColor] }

/-- Embeds `triangle(v0, v1, v2)` (Renderer.js lines 548-566): build a
transient 3-component vertex buffer from the concatenated points, then an
outline pass gated on the stroke alpha and a fill pass gated on the fill
alpha. JS truthiness of the alpha channel is alpha different from 0. -/
def triangle (v0 v1 v2 : List ℚ) (s : RState) : RState :=
  let vertices : VertexBuffer := ⟨v0 ++ v1 ++ v2, 3⟩
  let fill := s.fillColor
  let stroke := s.strokeColor
  let s1 :=
    if stroke.a ≠ 0 then
      drawVertices DrawMode.LINE_LOOP vertices.numItems (useColorShader vertices stroke s)
    else s
  if fill.a ≠ 0 then
    drawVertices DrawMode.TRIANGLE_STRIP vertices.numItems (useColorShader vertices fill s1)
  else s1

/-- Embeds `rect(x, y, width, height)` (Renderer.js lines 589-622):
optional center anchoring, push/translate/scale around an outline pass
(line strip over the wireframe) and a fill pass (triangle strip over the
unit rectangle), then pop. -/
def rect (x y width height : ℚ) (s : RState) : RState :=
  let fill := s.fillColor
  let stroke := s.strokeColor
  let x := if s.rectangle.rectModeValue = some "center" then x - width / 2 else x
  let y := if s.rectangle.rectModeValue = some "center" then y - height / 2 else y
  let s1 := scale width height 1 (translate x y 0 (pushMatrix s))
  let s2 :=
    if stroke.a ≠ 0 then
      drawVertices DrawMode.LINE_STRIP s.rectangleWireframe.vertices.numItems
        (useColorShader s.rectangleWireframe.vertices stroke s1)
    else s1
  let s3 :=
    if fill.a ≠ 0 then
      drawVertices DrawMode.TRIANGLE_STRIP s.rectangle.vertices.numItems
        (useColorShader s.rectangle.vertices fill s2)
    else s2
  popMatrix s3

/-- Embeds `image(t, x, y, width, height, texCoord)` (Renderer.js lines
647-680): if either dimension is undefined both default to the texture's
native dimensions; optional center anchoring; then a single tint pass
gated on the tint alpha (no outline pass exists in the source), bracketed
by its own push/pop. -/
def image (t : Texture) (x y : ℚ) (width height : Option ℚ)
    (texCoord : Option VertexBuffer) (s : RState) : RState :=
  let tint := s.tintColor
  let texCoordBuffer := texCoord.getD s.rectangle.texCoord
  let wh : ℚ × ℚ :=
    match width, height with
    | some w, some h => (w, h)
    | _, _ => (t.width, t.height)
  let x := if s.rectangle.imageModeValue = some "center" then x - wh.1 / 2 else x
  let y := if s.rectangle.imageModeValue = some "center" then y - wh.2 / 2 else y
  if tint.a ≠ 0 then
    popMatrix (drawVertices DrawMode.TRIANGLE_STRIP s.rectangle.vertices.numItems
      (useTextureShader s.rectangle.vertices texCoordBuffer tint t
        (scale wh.1 wh.2 1 (translate x y 0 (pushMatrix s)))))
  else s

/-- Embeds `box(width, height, depth, texture)` (Renderer.js lines
690-726): push/scale, an outline pass (indexed lines over the cube
wireframe) gated on the stroke alpha, then either a textured body pass
gated on the tint alpha (when a texture is supplied) or a flat body pass
gated on the fill alpha, then pop. -/
def box (width height depth : ℚ) (texture : Option Texture) (s : RState) : RState :=
  let tint := s.tintColor
  let fill := s.fillColor
  let stroke := s.strokeColor
  let s1 := scale width height depth (pushMatrix s)
  let s2 :=
    if stroke.a ≠ 0 then
      drawIndexedVertices DrawMode.LINES s.cubeWireframe.indices
        (useColorShader s.cubeWireframe.vertices stroke s1)
    else s1
  let s3 :=
    match texture with
    | some t =>
      if tint.a ≠ 0 then
        drawIndexedVertices DrawMode.TRIANGLES s.cube.indices
          (useTextureShader s.cube.vertices s.cube.texCoord tint t s2)
      else s2
    | none =>
      if fill.a ≠ 0 then
        drawIndexedVertices DrawMode.TRIANGLES s.cube.indices
          (useColorShader s.cube.vertices fill s2)
      else s2
  popMatrix s3

/-- A pushMatrix or popMatrix call, for reasoning about call sequences. -/
inductive MatrixOp where
  | push
  | pop
deriving DecidableEq, BEq

/-- Run a sequence of pushMatrix/popMatrix calls on a renderer state. -/
def runMatrixOps (ops : List MatrixOp) (s : RState) : RState :=
  ops.foldl (fun acc op => match op with
    | MatrixOp.push => pushMatrix acc
    | MatrixOp.pop => popMatrix acc) s

/-- A concrete renderer state for witnesses and counterexamples: identity
matrices, the colors of `defaults()` (white tint, white fill, black
stroke, all opaque), small plausible unit-geometry buffers, an empty
stack and no draws issued yet. -/
def testState : RState where
  mvMatrix := 1
  mvMatrixStack := []
  projMatrix := 1
  tintColor := ⟨1, 1, 1, 1⟩
  fillColor := ⟨1, 1, 1, 1⟩
  strokeColor := ⟨0, 0, 0, 1⟩
  rectangle := ⟨⟨[0, 0, 0, 1, 0, 0, 0, 1, 0, 1, 1, 0], 3⟩, ⟨[0, 0, 1, 0, 0, 1, 1, 1], 2⟩, none, none⟩
  rectangleWireframe := ⟨⟨[0, 0, 0, 1, 0, 0, 1, 1, 0, 0, 1, 0, 0, 0, 0], 3⟩⟩
  cube := ⟨⟨List.replicate 72 0, 3⟩, ⟨List.replicate 48 0, 2⟩, ⟨List.replicate 36 0⟩⟩
  cubeWireframe := ⟨⟨List.replicate 72 0, 3⟩, ⟨List.replicate 24 0⟩⟩
  boundProgram := none
  boundVertexBuffer := none
  boundColor := none
  draws := []

/-- A concrete texture for witnesses and counterexamples. -/
def testTexture : Texture := ⟨7, 16, 8⟩

end Tilt.Renderer


namespace Tilt.Math

/-! ## The color-string cache of Tilt.Math.hex2rgba (Math.js lines 312-365)

hex2rgba memoizes parsed colors on the Tilt.Math object itself and can
return shared array instances which the renderer later mutates in place,
so this part is modelled with an explicit heap: an array is a reference
(a `ℕ` index into `CacheState.heap`), and the cache `table` maps color
strings to references. -/

/-- A JS number inside a parsed color vector; `none` models NaN (a failed
string-to-number conversion). -/
abbrev JsNum := Option ℚ

/-- Division of a possibly-NaN value by 255 (NaN propagates). -/
def jsDiv255 (v : JsNum) : JsNum := v.map (fun q => q / 255)

/-- Value of one hexadecimal digit, if the character is one. -/
def hexDigitVal (c : Char) : Option ℕ :=
  if '0' ≤ c ∧ c ≤ '9' then some (c.toNat - '0'.toNat)
  else if 'a' ≤ c ∧ c ≤ 'f' then some (c.toNat - 'a'.toNat + 10)
  else if 'A' ≤ c ∧ c ≤ 'F' then some (c.toNat - 'A'.toNat + 10)
  else none

/-- Accumulate the longest leading run of hex digits. -/
def hexPrefixVal : List Char → ℕ → ℕ
  | [], acc => acc
  | c :: rest, acc =>
    match hexDigitVal c with
    | some d => hexPrefixVal rest (acc * 16 + d)
    | none => acc

/-- JS `parseInt(s, 16)` on the fragments hex2rgba feeds it: the longest
leading run of hex digits, NaN when there is none. -/
def parseIntHex (s : List Char) : JsNum :=
  match s with
  | [] => none
  | c :: rest => (hexDigitVal c).map (fun d => ((hexPrefixVal rest d : ℕ) : ℚ))

/-- Value of one decimal digit, if the character is one. -/
def decDigitVal (c : Char) : Option ℕ :=
  if '0' ≤ c ∧ c ≤ '9' then some (c.toNat - '0'.toNat) else none

/-- All-decimal-digit string to its value; `none` when a non-digit occurs. -/
def digitsToNat : List Char → ℕ → Option ℕ
  | [], acc => some acc
  | c :: rest, acc =>
    match decDigitVal c with
    | some d => digitsToNat rest (acc * 10 + d)
    | none => none

/-- Split a character list at every occurrence of a separator. -/
def splitOnCharAux (sep : Char) : List Char → List Char → List (List Char)
  | [], acc => [acc.reverse]
  | c :: rest, acc =>
    if c = sep then acc.reverse :: splitOnCharAux sep rest []
    else splitOnCharAux sep rest (c :: acc)

/-- Split a character list on a separator (JS String.split with a
one-character separator). -/
def splitOnChar (sep : Char) (s : List Char) : List (List Char) :=
  splitOnCharAux sep s []

/-- JS ToNumber on the comma-separated pieces of an rgb()/rgba() string:
trim spaces, empty means 0, otherwise an unsigned decimal literal with an
optional fractional part; anything else is NaN. -/
def jsToNumber (s : List Char) : JsNum :=
  let t1 := s.dropWhile (fun c => c = ' ')
  let t := (t1.reverse.dropWhile (fun c => c = ' ')).reverse
  if t.isEmpty then some 0
  else
    match splitOnChar '.' t with
    | [ip] => (digitsToNat ip 0).map (fun n => ((n : ℕ) : ℚ))
    | [ip, fp] =>
      if ip.isEmpty ∧ fp.isEmpty then none
      else
        match digitsToNat ip 0, digitsToNat fp 0 with
        | some i, some f => some (((i : ℕ) : ℚ) + ((f : ℕ) : ℚ) / 10 ^ fp.length)
        | _, _ => none
    | _ => none

/-- The shared color cache and its array heap. -/
structure CacheState where
  table : List (String × ℕ)
  heap : List (List JsNum)

/-- Look a color string up in the cache table. -/
def tableLookup : List (String × ℕ) → String → Option ℕ
  | [], _ => none
  | (k, v) :: rest, c => if k = c then some v else tableLookup rest c

/-- Allocate a fresh array: its reference is the current heap size. -/
def allocArray (st : CacheState) (v : List JsNum) : ℕ × CacheState :=
  (st.heap.length, { st with heap := st.heap ++ [v] })

/-- Read the array a reference points to. -/
def heapGet (st : CacheState) (r : ℕ) : List JsNum := (st.heap[r]?).getD []

/-- Overwrite the array a reference points to (in-place mutation). -/
def heapSet (st : CacheState) (r : ℕ) (v : List JsNum) : CacheState :=
  { st with heap := st.heap.set r v }

/-- The component at `i` of the split pieces of an rgb()/rgba() string,
divided by 255: a missing piece is undefined, and undefined / 255 is NaN. -/
def rgbaComponent (pieces : List (List Char)) (i : ℕ) : JsNum :=
  jsDiv255 (match pieces[i]? with
    | some p => jsToNumber p
    | none => none)

/-- The common bottom of hex2rgba for plain hex strings (and the expanded
3/4-digit shorthands): parse the channel pairs with parseInt(-, 16)/255,
with alpha 1 when the string has exactly 6 digits. The source stores
`this[color] = [r, g, b, a]` and then returns the distinct fresh literal
`[r, g, b, a]`: two arrays are allocated, the cache keeps the first and
the caller receives the second. -/
def hex2rgbaBottom (color : String) (hex : List Char) (st : CacheState) : ℕ × CacheState :=
  let r := jsDiv255 (parseIntHex ((hex.drop 0).take 2))
  let g := jsDiv255 (parseIntHex ((hex.drop 2).take 2))
  let b := jsDiv255 (parseIntHex ((hex.drop 4).take 2))
  let a := if hex.length = 6 then some (1 : ℚ) else jsDiv255 (parseIntHex ((hex.drop 6).take 2))
  let alloc1 := allocArray st [r, g, b, a]
  let st2 := { alloc1.2 with table := (color, alloc1.1) :: alloc1.2.table }
  let alloc2 := allocArray st2 [r, g, b, a]
  (alloc2.1, alloc2.2)

/-- Embeds `Tilt.Math.hex2rgba` (Math.js lines 312-365) over the explicit
cache/heap state: a cached string returns its cached reference and leaves
the state alone; otherwise the leading `#` is stripped, 3- and 4-digit
shorthands are expanded and parsed by the common bottom, `rgba(...)` and
`rgb(...)` strings are split on commas and their single parsed array is
both cached and returned, and every other string flows into the common
bottom (which caches one array and returns a distinct one). The branch
order matches the source: length 3, length 4, match rgba, match rgb,
plain hex. -/
def hex2rgba (color : String) (st : CacheState) : ℕ × CacheState :=
  match tableLookup st.table color with
  | some r => (r, st)
  | none =>
    let cs := color.toList
    let hex0 := if cs.head? = some '#' then cs.drop 1 else cs
    if hex0.length = 3 then
      let cr := hex0.getD 0 ' '
      let cg := hex0.getD 1 ' '
      let cb := hex0.getD 2 ' '
      hex2rgbaBottom color ([cr, cr, cg, cg, cb, cb] ++ [ 'f', 'f' ]) st
    else if hex0.length = 4 then
      let cr := hex0.getD 0 ' '
      let cg := hex0.getD 1 ' '
      let cb := hex0.getD 2 ' '
      let ca := hex0.getD 3 ' '
      hex2rgbaBottom color [cr, cr, cg, cg, cb, cb, ca, ca] st
    else if hex0.take 4 = [ 'r', 'g', 'b', 'a' ] then
      let pieces := splitOnChar ',' ((hex0.drop 5).take (hex0.length - 1 - 5))
      let rgba := [rgbaComponent pieces 0, rgbaComponent pieces 1,
                   rgbaComponent pieces 2, rgbaComponent pieces 3]
      let alloc := allocArray st rgba
      (alloc.1, { alloc.2 with table := (color, alloc.1) :: alloc.2.table })
    else if hex0.take 3 = [ 'r', 'g', 'b' ] then
      let pieces := splitOnChar ',' ((hex0.drop 4).take (hex0.length - 1 - 4))
      let rgba := [rgbaComponent pieces 0, rgbaComponent pieces 1,
                   rgbaComponent pieces 2, some 1]
      let alloc := allocArray st rgba
      (alloc.1, { alloc.2 with table := (color, alloc.1) :: alloc.2.table })
    else
      hex2rgbaBottom color hex0 st

/-- The empty cache (no strings parsed yet). -/
def emptyCache : CacheState := ⟨[], []⟩

end Tilt.Math

namespace Tilt.Renderer

/-! ## The renderer color setters over the shared cache (Renderer.js
lines 395-447)

This is the aliasing-aware model of `tint`/`fill`/`stroke` and their
disabling counterparts: the three color slots hold references into the
shared cache heap, so noFill's in-place writes hit the cached array. -/

/-- The color slots of the renderer as references into the shared cache
heap, together with that cache. -/
structure ColorState where
  cache : Tilt.Math.CacheState
  tintColor : ℕ
  fillColor : ℕ
  strokeColor : ℕ

/-- Embeds `fill(color)`: this.fillColor = Tilt.Math.hex2rgba(color). -/
def fill (color : String) (s : ColorState) : ColorState :=
  let pr := Tilt.Math.hex2rgba color s.cache
  { s with cache := pr.2, fillColor := pr.1 }

/-- Embeds `stroke(color)`: this.strokeColor = Tilt.Math.hex2rgba(color). -/
def stroke (color : String) (s : ColorState) : ColorState :=
  let pr := Tilt.Math.hex2rgba color s.cache
  { s with cache := pr.2, strokeColor := pr.1 }

/-- Embeds `tint(color)`: this.tintColor = Tilt.Math.hex2rgba(color). -/
def tint (color : String) (s : ColorState) : ColorState :=
  let pr := Tilt.Math.hex2rgba color s.cache
  { s with cache := pr.2, tintColor := pr.1 }

/-- Write a value into the first four slots of an array, keeping any
further elements (the JS setters assign indices 0..3 in place). -/
def setFirst4 (v : List Tilt.Math.JsNum) (q : Tilt.Math.JsNum) : List Tilt.Math.JsNum :=
  [q, q, q, q] ++ v.drop 4

/-- Embeds `noFill()`: sets components 0..3 of the array this.fillColor
points to, in place, to 0. -/
def noFill (s : ColorState) : ColorState :=
  { s with cache := (Tilt.Math.heapSet s.cache s.fillColor
      (setFirst4 (Tilt.Math.heapGet s.cache s.fillColor) (some 0))) }

/-- Embeds `noStroke()`: like noFill, on this.strokeColor. -/
def noStroke (s : ColorState) : ColorState :=
  { s with cache := (Tilt.Math.heapSet s.cache s.strokeColor
      (setFirst4 (Tilt.Math.heapGet s.cache s.strokeColor) (some 0))) }

/-- Embeds `noTint()`: sets components 0..3 of the array this.tintColor
points to, in place, to 1. -/
def noTint (s : ColorState) : ColorState :=
  { s with cache := (Tilt.Math.heapSet s.cache s.tintColor
      (setFirst4 (Tilt.Math.heapGet s.cache s.tintColor) (some 1))) }

/-- A concrete color state for witnesses: "#f00" is already cached at
reference 0, and the three slots point at further valid arrays. -/
def testColorState : ColorState :=
  ⟨⟨[("#f00", 0)],
    [[some 1, some 0, some 0, some 1],
     [some 1, some 1, some 1, some 1],
     [some 1, some 1, some 1, some 1],
     [some 0, some 0, some 0, some 1]]⟩, 1, 2, 3⟩

end Tilt.Renderer

namespace Tilt.Math

/-! ## Picking and camera math (Math.js lines 174-303)

unproject, createRay and intersectRayTriangle are in the excerpted
source; the vec3/mat4 helpers they call belong to the vendored gl-matrix
library which is not, so those helpers are modelled from the spec as
pure vector/matrix operations. JS float arithmetic is idealised over a
field (`ℚ` in the theorems; `ℝ` where a square root is needed). -/

/-- Modelled from the spec: `mat4.multiply(a, b, dest)` of the missing
gl-matrix library writes the matrix product into dest. -/
def mat4multiply {K : Type} [Field K] (a b : Matrix (Fin 4) (Fin 4) K) :
    Matrix (Fin 4) (Fin 4) K := a * b

/-- Modelled from the spec: `mat4.inverse` of the missing gl-matrix
library ("compute the inverse of (projection x model-view)"). On a
singular matrix the source silently produces NaN junk; here Mathlib's
junk value (the zero matrix) stands in, and the round-trip theorem
assumes an invertible product. -/
def mat4inverse {K : Type} [Field K] (a : Matrix (Fin 4) (Fin 4) K) :
    Matrix (Fin 4) (Fin 4) K := (1 / a.det) • a.adjugate

/-- Modelled from the spec: `mat4.multiplyVec4` applies the matrix to a
homogeneous 4-vector (column-vector convention). -/
def mat4multiplyVec4 {K : Type} [Field K] (a : Matrix (Fin 4) (Fin 4) K) (v : Fin 4 → K) :
    Fin 4 → K := a.mulVec v

/-- Embeds `Tilt.Math.unproject` (Math.js lines 174-197): invert
projection x model-view, map the window point into normalized device
coordinates (y flipped, z from [0,1] to [-1,1], homogeneous w 1),
transform by the inverse, then perspective-divide (the source stores
1/w into the fourth slot and scales the first three by it). -/
def unproject {K : Type} [Field K] (p : Fin 3 → K) (viewport : Fin 4 → K)
    (mvMatrix projMatrix : Matrix (Fin 4) (Fin 4) K) : Fin 4 → K :=
  let mvpMatrix := mat4inverse (mat4multiply projMatrix mvMatrix)
  let coordinates : Fin 4 → K :=
    ![(p 0 - viewport 0) / viewport 2 * 2 - 1,
      -((p 1 - viewport 1) / viewport 3 * 2 - 1),
      2 * p 2 - 1,
      1]
  let t := mat4multiplyVec4 mvpMatrix coordinates
  let w := 1 / t 3
  ![t 0 * w, t 1 * w, t 2 * w, w]

/-- The forward project-and-divide pipeline, written from the spec as the
inverse direction of unproject: transform the object-space point by
projection x model-view, perspective-divide, then map normalized device
coordinates back to window coordinates with the y flip and z into [0,1]. -/
def projectPoint {K : Type} [Field K] (o : Fin 3 → K) (viewport : Fin 4 → K)
    (mvMatrix projMatrix : Matrix (Fin 4) (Fin 4) K) : Fin 3 → K :=
  let c := mat4multiplyVec4 (mat4multiply projMatrix mvMatrix) ![o 0, o 1, o 2, 1]
  ![viewport 0 + (c 0 / c 3 + 1) / 2 * viewport 2,
    viewport 1 + (1 - c 1 / c 3) / 2 * viewport 3,
    (c 2 / c 3 + 1) / 2]

/-- A 3-component vector (a gl-matrix vec3 value). -/
structure Vec3 (K : Type) where
  x : K
  y : K
  z : K
deriving DecidableEq

/-- Modelled from the spec: `vec3.subtract` produces the componentwise
difference. -/
def vec3subtract {K : Type} [Field K] (a b : Vec3 K) : Vec3 K :=
  ⟨a.x - b.x, a.y - b.y, a.z - b.z⟩

/-- Modelled from the spec: `vec3.cross` produces the cross product. -/
def vec3cross {K : Type} [Field K] (a b : Vec3 K) : Vec3 K :=
  ⟨a.y * b.z - a.z * b.y, a.z * b.x - a.x * b.z, a.x * b.y - a.y * b.x⟩

/-- Modelled from the spec: `vec3.dot` produces the dot product. -/
def vec3dot {K : Type} [Field K] (a b : Vec3 K) : K :=
  a.x * b.x + a.y * b.y + a.z * b.z

/-- Modelled from the spec: `vec3.scale` scales a vector by a number. -/
def vec3scale {K : Type} [Field K] (a : Vec3 K) (r : K) : Vec3 K :=
  ⟨a.x * r, a.y * r, a.z * r⟩

/-- Modelled from the spec: `vec3.add` produces the componentwise sum. -/
def vec3add {K : Type} [Field K] (a b : Vec3 K) : Vec3 K :=
  ⟨a.x + b.x, a.y + b.y, a.z + b.z⟩

/-- A ray as consumed by intersectRayTriangle: a position and a
direction. -/
structure Ray (K : Type) where
  position : Vec3 K
  direction : Vec3 K

/-- What an intersectRayTriangle call produces: the returned code and the
final contents of the intersection out-parameter (a fresh [0,0,0] vector
when the caller supplied none, as vec3.create() yields). -/
structure IntersectResult (K : Type) where
  code : ℤ
  intersection : Vec3 K
deriving DecidableEq

/-- Embeds `Tilt.Math.intersectRayTriangle` (Math.js lines 236-303):
edge vectors u, v and plane normal n; -1 for a degenerate (zero-normal)
triangle; with a = -n.(pos - v0) and b = n.dir, |b| < 0.0001 means the
ray is parallel to the plane (2 if it lies in the plane, 0 otherwise);
r = a / b negative means the plane intersection is behind the origin
(0); otherwise the plane point pos + r dir is written to the
out-parameter and the parametric coordinates s, t decide between 0
(outside the triangle) and 1 (inside). -/
def intersectRayTriangle {K : Type} [LinearOrderedField K] (v0 v1 v2 : Vec3 K)
    (ray : Ray K) (intersection : Option (Vec3 K)) : IntersectResult K :=
  let inter0 := intersection.getD ⟨0, 0, 0⟩
  let u := vec3subtract v1 v0
  let v := vec3subtract v2 v0
  let n := vec3cross u v
  if n.x = 0 ∧ n.y = 0 ∧ n.z = 0 then ⟨-1, inter0⟩
  else
    let pos := ray.position
    let dir := ray.direction
    let w0 := vec3subtract pos v0
    let a := -(vec3dot n w0)
    let b := vec3dot n dir
    if |b| < 1 / 10000 then
      if a = 0 then ⟨2, inter0⟩ else ⟨0, inter0⟩
    else
      let r := a / b
      if r < 0 then ⟨0, inter0⟩
      else
        let inter := vec3add pos (vec3scale dir r)
        let uu := vec3dot u u
        let uv := vec3dot u v
        let vv := vec3dot v v
        let w := vec3subtract inter v0
        let wu := vec3dot w u
        let wv := vec3dot w v
        let D := uv * uv - uu * vv
        let s := (uv * wv - vv * wu) / D
        if s < 0 ∨ s > 1 then ⟨0, inter⟩
        else
          let t := (uv * wu - uu * wv) / D
          if t < 0 ∨ s + t > 1 then ⟨0, inter⟩ else ⟨1, inter⟩

/-- First three components of a homogeneous 4-vector as a Vec3. -/
def first3 {K : Type} (v : Fin 4 → K) : Vec3 K := ⟨v 0, v 1, v 2⟩

/-- Modelled from the spec: `vec3.normalize` scales a vector to unit
length ("direction = normalized(p1 - p0)"); the zero vector stays zero
(division by a zero length yields the zero vector, as in the library). -/
noncomputable def vec3normalize (v : Vec3 ℝ) : Vec3 ℝ :=
  let len := Real.sqrt (v.x ^ 2 + v.y ^ 2 + v.z ^ 2)
  ⟨v.x / len, v.y / len, v.z / len⟩

/-- What createRay returns: position, lookAt and direction. In the
source position and lookAt are the two point arrays after they were
unprojected in place (4 components each). -/
structure RayObject where
  position : Fin 4 → ℝ
  lookAt : Fin 4 → ℝ
  direction : Vec3 ℝ

/-- Embeds `Tilt.Math.createRay` (Math.js lines 211-221): unproject both
points (the source reuses p0 and p1 as the out-parameters, mutating them
in place), then return position = unprojected p0, lookAt = unprojected
p1, direction = normalize(subtract(p1, p0)) over the unprojected points.
The vec3 helpers are the spec-modelled pure operations above. -/
noncomputable def createRay (p0 p1 : Fin 3 → ℝ) (viewport : Fin 4 → ℝ)
    (mvMatrix projMatrix : Matrix (Fin 4) (Fin 4) ℝ) : RayObject :=
  let q0 := unproject p0 viewport mvMatrix projMatrix
  let q1 := unproject p1 viewport mvMatrix projMatrix
  { position := q0,
    lookAt := q1,
    direction := vec3normalize (vec3subtract (first3 q1) (first3 q0)) }

/-- The projection matrix of the C7 counterexample: swaps the z and w
rows, its own inverse. -/
def swapZW : Matrix (Fin 4) (Fin 4) ℚ :=
  !![1, 0, 0, 0; 0, 1, 0, 0; 0, 0, 0, 1; 0, 0, 1, 0]

end Tilt.Math

/-! ## Theorems -/

namespace Tilt

theorem spreadCovers_self (m : ℕ) : SpreadCovers m m 0 := by
  intro j
  constructor
  · intro h
    exact ⟨0, le_refl 0, by simpa using h⟩
  · rintro ⟨d, hd, hbit⟩
    interval_cases d
    simpa using hbit

theorem spreadCovers_step (m a c : ℕ) (h : SpreadCovers m a c) :
    SpreadCovers m (spreadStep a (c + 1)) (2 * c + 1) := by
  intro j
  rw [spreadStep, Nat.testBit_lor, Nat.testBit_shiftRight]
  constructor
  · intro hor
    rcases Bool.or_eq_true_iff.mp hor with hl | hr
    · obtain ⟨d, hd, hbit⟩ := (h j).mp hl
      exact ⟨d, by omega, hbit⟩
    · obtain ⟨d, hd, hbit⟩ := (h (c + 1 + j)).mp hr
      exact ⟨c + 1 + d, by omega, by rwa [show j + (c + 1 + d) = c + 1 + j + d by omega]⟩
  · rintro ⟨d, hd, hbit⟩
    rcases le_or_lt d c with hdc | hdc
    · exact Bool.or_eq_true_iff.mpr (Or.inl ((h j).mpr ⟨d, hdc, hbit⟩))
    · refine Bool.or_eq_true_iff.mpr (Or.inr ((h (c + 1 + j)).mpr ⟨d - (c + 1), by omega, ?_⟩))
      rwa [show c + 1 + j + (d - (c + 1)) = j + d by omega]

theorem spreadCovers_spreadBits (m : ℕ) : SpreadCovers m (spreadBits m) 31 := by
  have h1 := spreadCovers_step m m 0 (spreadCovers_self m)
  have h2 := spreadCovers_step m _ 1 h1
  have h3 := spreadCovers_step m _ 3 h2
  have h4 := spreadCovers_step m _ 7 h3
  have h5 := spreadCovers_step m _ 15 h4
  simpa [spreadBits] using h5

/-- The most significant bit of a nonzero natural number is set. -/
theorem testBit_size_sub_one {m : ℕ} (hm : m ≠ 0) :
    m.testBit (Nat.size m - 1) = true := by
  have hlt : m < 2 ^ Nat.size m := Nat.lt_size_self m
  have hsz : Nat.size m ≠ 0 := by
    intro h0
    rw [h0] at hlt
    omega
  have hge : 2 ^ (Nat.size m - 1) ≤ m := by
    by_contra hc
    push_neg at hc
    have := Nat.size_le.mpr hc
    omega
  have hdiv : m / 2 ^ (Nat.size m - 1) = 1 := by
    have h2 : m < 2 * 2 ^ (Nat.size m - 1) := by
      calc m < 2 ^ Nat.size m := hlt
      _ = 2 ^ (Nat.size m - 1 + 1) := by congr 1; omega
      _ = 2 * 2 ^ (Nat.size m - 1) := by rw [pow_succ, mul_comm]
    have hlo : 1 ≤ m / 2 ^ (Nat.size m - 1) :=
      (Nat.le_div_iff_mul_le (by positivity)).mpr (by omega)
    have hhi : m / 2 ^ (Nat.size m - 1) < 2 := Nat.div_lt_of_lt_mul (by omega)
    omega
  rw [Nat.testBit_to_div_mod, hdiv]
  decide

/-- After the five spreading rounds, a number below 2^31 has all bits below
its bit-length set. -/
theorem spreadBits_eq (m : ℕ) (hm : m < 2 ^ 31) :
    spreadBits m = 2 ^ Nat.size m - 1 := by
  have hsz : Nat.size m ≤ 31 := Nat.size_le.mpr hm
  have hcov := spreadCovers_spreadBits m
  apply Nat.eq_of_testBit_eq
  intro j
  rw [Nat.testBit_two_pow_sub_one]
  by_cases hj : j < Nat.size m
  · have hm0 : m ≠ 0 := by
      intro h0
      rw [h0] at hj
      simp [Nat.size_zero] at hj
    have : (spreadBits m).testBit j = true := by
      refine (hcov j).mpr ⟨Nat.size m - 1 - j, by omega, ?_⟩
      rw [show j + (Nat.size m - 1 - j) = Nat.size m - 1 by omega]
      exact testBit_size_sub_one hm0
    simp [this, hj]
  · have : (spreadBits m).testBit j = false := by
      by_contra hc
      have htrue : (spreadBits m).testBit j = true := by
        cases h : (spreadBits m).testBit j
        · exact absurd h hc
        · rfl
      obtain ⟨d, _, hbit⟩ := (hcov j).mp htrue
      have : m.testBit (j + d) = false := by
        apply Nat.testBit_eq_false_of_lt
        calc m < 2 ^ Nat.size m := Nat.lt_size_self m
        _ ≤ 2 ^ (j + d) := Nat.pow_le_pow_right (by norm_num) (by omega)
      rw [this] at hbit
      exact Bool.false_ne_true hbit
    simp [this, hj]

/-- A nonnegative value below 2^31 is its own 32-bit signed reduction. -/
theorem jsToInt32_of_range (z : ℤ) (h0 : 0 ≤ z) (h1 : z < 2 ^ 31) : jsToInt32 z = z := by
  unfold jsToInt32
  omega

/-- For a nonnegative 32-bit-range value the JS or-with-shift round agrees
with the natural-number round. -/
theorem jsSpreadStep_eq (a : ℕ) (ha : a < 2 ^ 31) (i : ℕ) :
    jsSpreadStep (a : ℤ) i = (spreadStep a i : ℤ) ∧ spreadStep a i < 2 ^ 31 := by
  have hb : (a : ℤ) < 2 ^ 31 := by exact_mod_cast ha
  have hi32 : jsToInt32 (a : ℤ) = (a : ℤ) := jsToInt32_of_range _ (Int.natCast_nonneg a) hb
  have hshr : jsShr (a : ℤ) i = ((a / 2 ^ i : ℕ) : ℤ) := by
    unfold jsShr
    rw [hi32, Int.fdiv_eq_ediv _ (by positivity)]
    push_cast
    rfl
  have hdivlt : a / 2 ^ i < 2 ^ 31 := lt_of_le_of_lt (Nat.div_le_self _ _) ha
  have hd : ((a / 2 ^ i : ℕ) : ℤ) < 2 ^ 31 := by exact_mod_cast hdivlt
  have hi32b : jsToInt32 ((a / 2 ^ i : ℕ) : ℤ) = ((a / 2 ^ i : ℕ) : ℤ) :=
    jsToInt32_of_range _ (Int.natCast_nonneg _) hd
  have hstep : spreadStep a i = a ||| (a / 2 ^ i) := by
    rw [spreadStep, Nat.shiftRight_eq_div_pow]
  constructor
  · rw [jsSpreadStep, jsOr, hshr, hi32, hi32b, hstep]
    rfl
  · rw [hstep]
    exact Nat.or_lt_two_pow ha hdivlt

/-- For in-range inputs the integer bit-spread agrees with the
natural-number bit-spread. -/
theorem nextPowerOfTwo_eq_spread (x : ℤ) (h1 : 1 ≤ x) (h2 : x ≤ 2 ^ 31) :
    nextPowerOfTwo x = (spreadBits (x - 1).toNat : ℤ) + 1 := by
  set m := (x - 1).toNat with hm
  have hx1 : x - 1 = (m : ℤ) := by omega
  have hmlt : m < 2 ^ 31 := by omega
  obtain ⟨e1, b1⟩ := jsSpreadStep_eq m hmlt 1
  obtain ⟨e2, b2⟩ := jsSpreadStep_eq _ b1 2
  obtain ⟨e3, b3⟩ := jsSpreadStep_eq _ b2 4
  obtain ⟨e4, b4⟩ := jsSpreadStep_eq _ b3 8
  obtain ⟨e5, _⟩ := jsSpreadStep_eq _ b4 16
  unfold nextPowerOfTwo
  rw [hx1, e1, e2, e3, e4, e5]
  rfl

end Tilt

/-- C8: for every integer x with 1 ≤ x ≤ 2^31, nextPowerOfTwo x (under the
JS 32-bit signed bitwise semantics of the embedding) is a power of two, is
at least x, and is at most every power of two that is at least x: it is
the smallest power of two greater than or equal to x. -/
theorem c8_nextPowerOfTwo_least (x : ℤ) (h1 : 1 ≤ x) (h2 : x ≤ 2 ^ 31) :
    ∃ k : ℕ, Tilt.nextPowerOfTwo x = 2 ^ k ∧ x ≤ 2 ^ k ∧ ∀ j : ℕ, x ≤ 2 ^ j → k ≤ j := by
  set m := (x - 1).toNat with hm
  have hx1 : x - 1 = (m : ℤ) := by omega
  have hmlt : m < 2 ^ 31 := by omega
  refine ⟨Nat.size m, ?_, ?_, ?_⟩
  · rw [Tilt.nextPowerOfTwo_eq_spread x h1 h2, Tilt.spreadBits_eq m hmlt]
    have hpos : 1 ≤ 2 ^ Nat.size m := Nat.one_le_two_pow
    push_cast [hpos]
    ring
  · have h := Nat.lt_size_self m
    have : (m : ℤ) < 2 ^ Nat.size m := by exact_mod_cast h
    omega
  · intro j hj
    have : m < 2 ^ j := by
      have : (m : ℤ) < 2 ^ j := by omega
      exact_mod_cast this
    exact Nat.size_le.mpr this

/-- Witness for C8 at x = 5: the hypotheses hold and the conclusion is
delivered by the theorem. -/
theorem c8_witness :
    ∃ k : ℕ, Tilt.nextPowerOfTwo 5 = 2 ^ k ∧ (5 : ℤ) ≤ 2 ^ k ∧ ∀ j : ℕ, (5 : ℤ) ≤ 2 ^ j → k ≤ j :=
  c8_nextPowerOfTwo_least 5 (by norm_num) (by norm_num)

namespace Tilt.Renderer

/-- Unfolding one step of a matrix-op sequence. -/
theorem runMatrixOps_cons (op : MatrixOp) (rest : List MatrixOp) (s : RState) :
    runMatrixOps (op :: rest) s
      = runMatrixOps rest
          (match op with
           | MatrixOp.push => pushMatrix s
           | MatrixOp.pop => popMatrix s) := rfl

theorem pushMatrix_stack_length (s : RState) :
    (pushMatrix s).mvMatrixStack.length = s.mvMatrixStack.length + 1 := rfl

theorem runMatrixOps_cons_push (rest : List MatrixOp) (s : RState) :
    runMatrixOps (MatrixOp.push :: rest) s = runMatrixOps rest (pushMatrix s) := rfl

theorem runMatrixOps_cons_pop (rest : List MatrixOp) (s : RState) :
    runMatrixOps (MatrixOp.pop :: rest) s = runMatrixOps rest (popMatrix s) := rfl

theorem count_pop_cons_push (l : List MatrixOp) :
    (MatrixOp.push :: l).count MatrixOp.pop = l.count MatrixOp.pop := by
  rw [List.count_cons]
  rfl

theorem count_push_cons_push (l : List MatrixOp) :
    (MatrixOp.push :: l).count MatrixOp.push = l.count MatrixOp.push + 1 := by
  rw [List.count_cons]
  rfl

theorem count_pop_cons_pop (l : List MatrixOp) :
    (MatrixOp.pop :: l).count MatrixOp.pop = l.count MatrixOp.pop + 1 := by
  rw [List.count_cons]
  rfl

theorem count_push_cons_pop (l : List MatrixOp) :
    (MatrixOp.pop :: l).count MatrixOp.push = l.count MatrixOp.push := by
  rw [List.count_cons]
  rfl

/-- Depth bookkeeping for a sequence of push/pop calls in which no prefix
pops more than the starting depth plus its own pushes. -/
theorem runMatrixOps_depth (ops : List MatrixOp) (s : RState)
    (h : ∀ k, k ≤ ops.length →
      ((ops.take k).count MatrixOp.pop)
        ≤ s.mvMatrixStack.length + (ops.take k).count MatrixOp.push) :
    (runMatrixOps ops s).mvMatrixStack.length + ops.count MatrixOp.pop
      = s.mvMatrixStack.length + ops.count MatrixOp.push := by
  induction ops generalizing s with
  | nil => simp [runMatrixOps]
  | cons op rest ih =>
    cases op with
    | push =>
      have hcond : ∀ k, k ≤ rest.length →
          (rest.take k).count MatrixOp.pop
            ≤ (pushMatrix s).mvMatrixStack.length + (rest.take k).count MatrixOp.push := by
        intro k hk
        have hk1 := h (k + 1) (Nat.succ_le_succ hk)
        simp only [List.take_succ_cons, count_pop_cons_push, count_push_cons_push] at hk1
        rw [pushMatrix_stack_length]
        omega
      have key := ih (pushMatrix s) hcond
      rw [runMatrixOps_cons_push]
      rw [pushMatrix_stack_length] at key
      simp only [count_pop_cons_push, count_push_cons_push]
      omega
    | pop =>
      have h1 := h 1 (by simp)
      simp only [List.take_succ_cons, List.take_zero, count_pop_cons_pop, count_push_cons_pop,
        List.count_nil] at h1
      cases hstack : s.mvMatrixStack with
      | nil =>
        rw [hstack] at h1
        simp at h1
      | cons top rest2 =>
        have hpop : popMatrix s = { s with mvMatrix := top, mvMatrixStack := rest2 } := by
          simp [popMatrix, hstack]
        have hlen2 : (popMatrix s).mvMatrixStack.length = rest2.length := by
          rw [hpop]
        have hslen : s.mvMatrixStack.length = rest2.length + 1 := by
          rw [hstack]
          rfl
        have hcond : ∀ k, k ≤ rest.length →
            (rest.take k).count MatrixOp.pop
              ≤ (popMatrix s).mvMatrixStack.length + (rest.take k).count MatrixOp.push := by
          intro k hk
          have hk1 := h (k + 1) (Nat.succ_le_succ hk)
          simp only [List.take_succ_cons, count_pop_cons_pop, count_push_cons_pop] at hk1
          rw [hlen2]
          rw [hslen] at hk1
          omega
        have key := ih (popMatrix s) hcond
        rw [runMatrixOps_cons_pop]
        rw [hlen2] at key
        simp only [count_pop_cons_pop, count_push_cons_pop, List.length_cons]
        omega

end Tilt.Renderer

/-- C3: starting from an empty model-view matrix stack, a sequence of
pushMatrix/popMatrix calls with n pushes and m pops, in any interleaving
in which no prefix has more pops than pushes (no pop precedes its
matching push), leaves the stack at depth n - m; and popMatrix on a state
with an empty stack changes neither the stack nor the current model-view
matrix. -/
theorem c3_matrix_stack_depth (ops : List Tilt.Renderer.MatrixOp) (s : Tilt.Renderer.RState)
    (hs : s.mvMatrixStack = [])
    (h : ∀ k, k ≤ ops.length →
      (ops.take k).count Tilt.Renderer.MatrixOp.pop
        ≤ (ops.take k).count Tilt.Renderer.MatrixOp.push) :
    (Tilt.Renderer.runMatrixOps ops s).mvMatrixStack.length
        = ops.count Tilt.Renderer.MatrixOp.push - ops.count Tilt.Renderer.MatrixOp.pop
    ∧ ∀ s2 : Tilt.Renderer.RState, s2.mvMatrixStack = [] →
        (Tilt.Renderer.popMatrix s2).mvMatrixStack = s2.mvMatrixStack
        ∧ (Tilt.Renderer.popMatrix s2).mvMatrix = s2.mvMatrix := by
  constructor
  · have key := Tilt.Renderer.runMatrixOps_depth ops s ?_
    · have hmn := h ops.length le_rfl
      rw [List.take_length] at hmn
      rw [hs] at key
      simp at key
      omega
    · intro k hk
      rw [hs]
      simpa using h k hk
  · intro s2 h2
    constructor <;> simp [Tilt.Renderer.popMatrix, h2]

/-- Witness for C3: two pushes then one pop from the test state leave
depth 2 - 1, and popping an empty stack is a no-op. -/
theorem c3_witness :
    (Tilt.Renderer.runMatrixOps
        [Tilt.Renderer.MatrixOp.push, Tilt.Renderer.MatrixOp.push, Tilt.Renderer.MatrixOp.pop]
        Tilt.Renderer.testState).mvMatrixStack.length
      = [Tilt.Renderer.MatrixOp.push, Tilt.Renderer.MatrixOp.push,
          Tilt.Renderer.MatrixOp.pop].count Tilt.Renderer.MatrixOp.push
        - [Tilt.Renderer.MatrixOp.push, Tilt.Renderer.MatrixOp.push,
            Tilt.Renderer.MatrixOp.pop].count Tilt.Renderer.MatrixOp.pop
    ∧ ∀ s2 : Tilt.Renderer.RState, s2.mvMatrixStack = [] →
        (Tilt.Renderer.popMatrix s2).mvMatrixStack = s2.mvMatrixStack
        ∧ (Tilt.Renderer.popMatrix s2).mvMatrix = s2.mvMatrix :=
  c3_matrix_stack_depth _ Tilt.Renderer.testState rfl (by decide)

/-- C2: every primitive-drawing call (triangle, rect, image, box) leaves
the model-view matrix stack at the depth it had before the call, in every
renderer state, whichever of the outline and fill/tint passes execute. -/
theorem c2_primitive_stack_depth (s : Tilt.Renderer.RState) (v0 v1 v2 : List ℚ)
    (x y w h d : ℚ) (t : Tilt.Renderer.Texture) (wo ho : Option ℚ)
    (tc : Option Tilt.Renderer.VertexBuffer) (tex : Option Tilt.Renderer.Texture) :
    (Tilt.Renderer.triangle v0 v1 v2 s).mvMatrixStack.length = s.mvMatrixStack.length
    ∧ (Tilt.Renderer.rect x y w h s).mvMatrixStack.length = s.mvMatrixStack.length
    ∧ (Tilt.Renderer.image t x y wo ho tc s).mvMatrixStack.length = s.mvMatrixStack.length
    ∧ (Tilt.Renderer.box w h d tex s).mvMatrixStack.length = s.mvMatrixStack.length := by
  refine ⟨?_, ?_, ?_, ?_⟩
  · unfold Tilt.Renderer.triangle
    dsimp only
    split_ifs <;> rfl
  · unfold Tilt.Renderer.rect
    dsimp only
    split_ifs <;> rfl
  · unfold Tilt.Renderer.image
    dsimp only
    split_ifs <;> rfl
  · cases tex <;>
      (unfold Tilt.Renderer.box
       dsimp only
       split_ifs <;> rfl)

/-- C1 as written is false for image: with an opaque stroke color and an
opaque tint color, image issues exactly one backend draw call (the
tint/fill pass), not two — the source has no outline pass in image. The
test state has stroke alpha 1 and tint alpha 1. -/
theorem c1_counterexample :
    Tilt.Renderer.testState.strokeColor.a ≠ 0
    ∧ Tilt.Renderer.testState.tintColor.a ≠ 0
    ∧ (Tilt.Renderer.image Tilt.Renderer.testTexture 1 2 (some 3) (some 4) none
        Tilt.Renderer.testState).draws.length = 1 := by
  refine ⟨?_, ?_, ?_⟩
  · norm_num [Tilt.Renderer.testState]
  · norm_num [Tilt.Renderer.testState]
  · rfl

/-- C1 amended: for rect and box the claim holds as stated — with both
gating alphas zero the call issues no backend draw call, with both
nonzero it issues exactly two, the outline draw strictly before the
fill/tint draw (for box the body pass is gated on fill without a texture
and on tint with one). image has no outline pass: it issues no draw call
when the tint alpha is zero (whatever the stroke), and exactly one
(the tint draw, no outline) when the tint alpha is nonzero. -/
theorem c1_draw_calls_amended (s : Tilt.Renderer.RState) (x y w h d : ℚ)
    (t tx : Tilt.Renderer.Texture) (wo ho : Option ℚ)
    (tc : Option Tilt.Renderer.VertexBuffer) :
    ((s.strokeColor.a = 0 ∧ s.fillColor.a = 0) →
      (Tilt.Renderer.rect x y w h s).draws = s.draws)
    ∧ ((s.strokeColor.a ≠ 0 ∧ s.fillColor.a ≠ 0) →
      (Tilt.Renderer.rect x y w h s).draws
        = s.draws
          ++ [Tilt.Renderer.GLDraw.arrays Tilt.Renderer.DrawMode.LINE_STRIP 0
                s.rectangleWireframe.vertices.numItems
                (some s.rectangleWireframe.vertices)
                (some Tilt.Renderer.ProgId.colorShader) (some s.strokeColor),
              Tilt.Renderer.GLDraw.arrays Tilt.Renderer.DrawMode.TRIANGLE_STRIP 0
                s.rectangle.vertices.numItems
                (some s.rectangle.vertices)
                (some Tilt.Renderer.ProgId.colorShader) (some s.fillColor)])
    ∧ ((s.strokeColor.a = 0 ∧ s.fillColor.a = 0) →
      (Tilt.Renderer.box w h d none s).draws = s.draws)
    ∧ ((s.strokeColor.a ≠ 0 ∧ s.fillColor.a ≠ 0) →
      (Tilt.Renderer.box w h d none s).draws
        = s.draws
          ++ [Tilt.Renderer.GLDraw.elements Tilt.Renderer.DrawMode.LINES
                s.cubeWireframe.indices
                (some s.cubeWireframe.vertices)
                (some Tilt.Renderer.ProgId.colorShader) (some s.strokeColor),
              Tilt.Renderer.GLDraw.elements Tilt.Renderer.DrawMode.TRIANGLES
                s.cube.indices
                (some s.cube.vertices)
                (some Tilt.Renderer.ProgId.colorShader) (some s.fillColor)])
    ∧ ((s.strokeColor.a = 0 ∧ s.tintColor.a = 0) →
      (Tilt.Renderer.box w h d (some tx) s).draws = s.draws)
    ∧ ((s.strokeColor.a ≠ 0 ∧ s.tintColor.a ≠ 0) →
      (Tilt.Renderer.box w h d (some tx) s).draws
        = s.draws
          ++ [Tilt.Renderer.GLDraw.elements Tilt.Renderer.DrawMode.LINES
                s.cubeWireframe.indices
                (some s.cubeWireframe.vertices)
                (some Tilt.Renderer.ProgId.colorShader) (some s.strokeColor),
              Tilt.Renderer.GLDraw.elements Tilt.Renderer.DrawMode.TRIANGLES
                s.cube.indices
                (some s.cube.vertices)
                (some Tilt.Renderer.ProgId.textureShader) (some s.tintColor)])
    ∧ (s.tintColor.a = 0 →
      (Tilt.Renderer.image t x y wo ho tc s).draws = s.draws)
    ∧ (s.tintColor.a ≠ 0 →
      (Tilt.Renderer.image t x y wo ho tc s).draws
        = s.draws
          ++ [Tilt.Renderer.GLDraw.arrays Tilt.Renderer.DrawMode.TRIANGLE_STRIP 0
                s.rectangle.vertices.numItems
                (some s.rectangle.vertices)
                (some Tilt.Renderer.ProgId.textureShader) (some s.tintColor)]) := by
  refine ⟨?_, ?_, ?_, ?_, ?_, ?_, ?_, ?_⟩
  · rintro ⟨h1, h2⟩
    unfold Tilt.Renderer.rect
    dsimp only
    rw [if_neg (by simp [h2]), if_neg (by simp [h1])]
    rfl
  · rintro ⟨h1, h2⟩
    unfold Tilt.Renderer.rect
    dsimp only
    rw [if_pos h2, if_pos h1]
    show s.draws ++ [_] ++ [_] = _
    rw [List.append_assoc]
    rfl
  · rintro ⟨h1, h2⟩
    unfold Tilt.Renderer.box
    dsimp only
    rw [if_neg (by simp [h2]), if_neg (by simp [h1])]
    rfl
  · rintro ⟨h1, h2⟩
    unfold Tilt.Renderer.box
    dsimp only
    rw [if_pos h2, if_pos h1]
    show s.draws ++ [_] ++ [_] = _
    rw [List.append_assoc]
    rfl
  · rintro ⟨h1, h2⟩
    unfold Tilt.Renderer.box
    dsimp only
    rw [if_neg (by simp [h2]), if_neg (by simp [h1])]
    rfl
  · rintro ⟨h1, h2⟩
    unfold Tilt.Renderer.box
    dsimp only
    rw [if_pos h2, if_pos h1]
    show s.draws ++ [_] ++ [_] = _
    rw [List.append_assoc]
    rfl
  · intro h1
    unfold Tilt.Renderer.image
    dsimp only
    rw [if_neg (by simp [h1])]
  · intro h1
    unfold Tilt.Renderer.image
    dsimp only
    rw [if_pos h1]
    rfl

/-- Witness for C1 at the test state (opaque stroke, opaque fill): rect
issues the outline draw and then the fill draw. -/
theorem c1_witness :
    (Tilt.Renderer.rect 10 10 50 30 Tilt.Renderer.testState).draws
      = Tilt.Renderer.testState.draws
        ++ [Tilt.Renderer.GLDraw.arrays Tilt.Renderer.DrawMode.LINE_STRIP 0
              Tilt.Renderer.testState.rectangleWireframe.vertices.numItems
              (some Tilt.Renderer.testState.rectangleWireframe.vertices)
              (some Tilt.Renderer.ProgId.colorShader) (some Tilt.Renderer.testState.strokeColor),
            Tilt.Renderer.GLDraw.arrays Tilt.Renderer.DrawMode.TRIANGLE_STRIP 0
              Tilt.Renderer.testState.rectangle.vertices.numItems
              (some Tilt.Renderer.testState.rectangle.vertices)
              (some Tilt.Renderer.ProgId.colorShader) (some Tilt.Renderer.testState.fillColor)] :=
  (c1_draw_calls_amended Tilt.Renderer.testState 10 10 50 30 1
      Tilt.Renderer.testTexture Tilt.Renderer.testTexture none none none).2.1
    ⟨by norm_num [Tilt.Renderer.testState], by norm_num [Tilt.Renderer.testState]⟩

namespace Tilt.Math

theorem tableLookup_head (c : String) (r : ℕ) (t : List (String × ℕ)) :
    tableLookup ((c, r) :: t) c = some r := by
  simp [tableLookup]

/-- A string already in the cache is answered from the cache: the cached
reference is returned and the state is untouched. -/
theorem hex2rgba_cached (color : String) (st : CacheState) (r : ℕ)
    (h : tableLookup st.table color = some r) :
    hex2rgba color st = (r, st) := by
  unfold hex2rgba
  rw [h]

/-- Every call of hex2rgba leaves the color string present in the cache
table of the resulting state. -/
theorem hex2rgba_caches (color : String) (st : CacheState) :
    ∃ r, tableLookup (hex2rgba color st).2.table color = some r := by
  unfold hex2rgba
  cases h : tableLookup st.table color with
  | some r =>
    refine ⟨r, ?_⟩
    dsimp only
    exact h
  | none =>
    dsimp only
    split_ifs <;> exact ⟨_, tableLookup_head _ _ _⟩

end Tilt.Math

/-- C6 amended: for a string already present in the cache — in particular
from the second call onward, whatever the string — hex2rgba returns the
identical cached array instance and leaves the state untouched, so the
second and every later call agree on the returned instance. (As stated
the claim fails: for a hex-form string the first call returns a fresh
array distinct from the one the cache keeps, see the counterexample.) -/
theorem c6_hex2rgba_cached_instance_amended (color : String) (st : Tilt.Math.CacheState) :
    (Tilt.Math.hex2rgba color (Tilt.Math.hex2rgba color st).2).1
      = (Tilt.Math.hex2rgba color
          ((Tilt.Math.hex2rgba color (Tilt.Math.hex2rgba color st).2).2)).1
    ∧ (Tilt.Math.hex2rgba color ((Tilt.Math.hex2rgba color st).2)).2
      = (Tilt.Math.hex2rgba color st).2 := by
  obtain ⟨r, hr⟩ := Tilt.Math.hex2rgba_caches color st
  have h2 := Tilt.Math.hex2rgba_cached color _ r hr
  simp [h2]

/-- C6 as stated is false: on the not-yet-cached hex string "#f00" the
first call returns a fresh array (reference 1) while the cache keeps a
different instance (reference 0), which the second call returns — the
two calls do not return the same array instance. -/
theorem c6_counterexample :
    (Tilt.Math.hex2rgba "#f00" Tilt.Math.emptyCache).1
      ≠ (Tilt.Math.hex2rgba "#f00" (Tilt.Math.hex2rgba "#f00" Tilt.Math.emptyCache).2).1 := by
  decide

namespace Tilt.Math

/-- Writing an array through a valid reference and reading it back gives
the written contents. -/
theorem heapGet_heapSet_self (st : CacheState) (r : ℕ) (v : List JsNum)
    (h : r < st.heap.length) :
    heapGet (heapSet st r v) r = v := by
  unfold heapGet heapSet
  rw [List.getElem?_set_self]
  · rfl
  · exact h

/-- Writing through the heap leaves the cache table untouched. -/
theorem heapSet_table (st : CacheState) (r : ℕ) (v : List JsNum) :
    (heapSet st r v).table = st.table := rfl

end Tilt.Math

namespace Tilt.Renderer

/-- The first four components of an in-place overwritten array are the
value written. -/
theorem setFirst4_take (v : List Tilt.Math.JsNum) (q : Tilt.Math.JsNum) :
    (setFirst4 v q).take 4 = [q, q, q, q] := rfl

/-- fill on a cached color string stores the cached reference and leaves
the cache alone. -/
theorem fill_cached (c : String) (s : ColorState) (r0 : ℕ)
    (hc : Tilt.Math.tableLookup s.cache.table c = some r0) :
    fill c s = { s with cache := s.cache, fillColor := r0 } := by
  unfold fill
  rw [Tilt.Math.hex2rgba_cached c s.cache r0 hc]

/-- stroke on a cached color string stores the cached reference and
leaves the cache alone. -/
theorem stroke_cached (c : String) (s : ColorState) (r0 : ℕ)
    (hc : Tilt.Math.tableLookup s.cache.table c = some r0) :
    stroke c s = { s with cache := s.cache, strokeColor := r0 } := by
  unfold stroke
  rw [Tilt.Math.hex2rgba_cached c s.cache r0 hc]

/-- tint on a cached color string stores the cached reference and leaves
the cache alone. -/
theorem tint_cached (c : String) (s : ColorState) (r0 : ℕ)
    (hc : Tilt.Math.tableLookup s.cache.table c = some r0) :
    tint c s = { s with cache := s.cache, tintColor := r0 } := by
  unfold tint
  rw [Tilt.Math.hex2rgba_cached c s.cache r0 hc]

end Tilt.Renderer

/-- C9: when the parsed vector of color string c is already in the shared
cache (at a valid reference), the sequence fill(c); noFill() mutates that
cached vector in place to [0,0,0,0]; every subsequent fill(c), stroke(c)
or tint(c) then stores a reference to a vector whose four components are
all 0 — alpha 0, so the corresponding pass is disabled — even though the
caller asked for color c. -/
theorem c9_noFill_poisons_cached_color (c : String) (s : Tilt.Renderer.ColorState) (r0 : ℕ)
    (hc : Tilt.Math.tableLookup s.cache.table c = some r0)
    (hr : r0 < s.cache.heap.length) :
    ((Tilt.Math.heapGet (Tilt.Renderer.noFill (Tilt.Renderer.fill c s)).cache r0).take 4
        = [some 0, some 0, some 0, some 0])
    ∧ ((Tilt.Renderer.fill c (Tilt.Renderer.noFill (Tilt.Renderer.fill c s))).fillColor = r0
      ∧ (Tilt.Math.heapGet
            (Tilt.Renderer.fill c (Tilt.Renderer.noFill (Tilt.Renderer.fill c s))).cache
            (Tilt.Renderer.fill c
              (Tilt.Renderer.noFill (Tilt.Renderer.fill c s))).fillColor).take 4
          = [some 0, some 0, some 0, some 0])
    ∧ ((Tilt.Renderer.stroke c (Tilt.Renderer.noFill (Tilt.Renderer.fill c s))).strokeColor = r0
      ∧ (Tilt.Math.heapGet
            (Tilt.Renderer.stroke c (Tilt.Renderer.noFill (Tilt.Renderer.fill c s))).cache
            (Tilt.Renderer.stroke c
              (Tilt.Renderer.noFill (Tilt.Renderer.fill c s))).strokeColor).take 4
          = [some 0, some 0, some 0, some 0])
    ∧ ((Tilt.Renderer.tint c (Tilt.Renderer.noFill (Tilt.Renderer.fill c s))).tintColor = r0
      ∧ (Tilt.Math.heapGet
            (Tilt.Renderer.tint c (Tilt.Renderer.noFill (Tilt.Renderer.fill c s))).cache
            (Tilt.Renderer.tint c
              (Tilt.Renderer.noFill (Tilt.Renderer.fill c s))).tintColor).take 4
          = [some 0, some 0, some 0, some 0]) := by
  have hfill := Tilt.Renderer.fill_cached c s r0 hc
  have hs1cache : (Tilt.Renderer.noFill (Tilt.Renderer.fill c s)).cache
      = Tilt.Math.heapSet s.cache r0
          (Tilt.Renderer.setFirst4 (Tilt.Math.heapGet s.cache r0) (some 0)) := by
    rw [hfill]
    rfl
  have htab : Tilt.Math.tableLookup
      (Tilt.Renderer.noFill (Tilt.Renderer.fill c s)).cache.table c = some r0 := by
    rw [hs1cache, Tilt.Math.heapSet_table]
    exact hc
  have hget : Tilt.Math.heapGet (Tilt.Renderer.noFill (Tilt.Renderer.fill c s)).cache r0
      = Tilt.Renderer.setFirst4 (Tilt.Math.heapGet s.cache r0) (some 0) := by
    rw [hs1cache]
    exact Tilt.Math.heapGet_heapSet_self s.cache r0 _ hr
  refine ⟨?_, ⟨?_, ?_⟩, ⟨?_, ?_⟩, ⟨?_, ?_⟩⟩
  · rw [hget]
    exact Tilt.Renderer.setFirst4_take _ _
  · rw [Tilt.Renderer.fill_cached c _ r0 htab]
  · rw [Tilt.Renderer.fill_cached c _ r0 htab]
    dsimp only
    rw [hget]
    exact Tilt.Renderer.setFirst4_take _ _
  · rw [Tilt.Renderer.stroke_cached c _ r0 htab]
  · rw [Tilt.Renderer.stroke_cached c _ r0 htab]
    dsimp only
    rw [hget]
    exact Tilt.Renderer.setFirst4_take _ _
  · rw [Tilt.Renderer.tint_cached c _ r0 htab]
  · rw [Tilt.Renderer.tint_cached c _ r0 htab]
    dsimp only
    rw [hget]
    exact Tilt.Renderer.setFirst4_take _ _

/-- Witness for C9 at the test color state, where "#f00" is cached at
reference 0 with value [1,0,0,1]: after fill; noFill the cached vector is
all zeros and the three setters re-deliver it. -/
theorem c9_witness :
    ((Tilt.Math.heapGet
        (Tilt.Renderer.noFill (Tilt.Renderer.fill "#f00" Tilt.Renderer.testColorState)).cache
        0).take 4 = [some 0, some 0, some 0, some 0])
    ∧ ((Tilt.Renderer.fill "#f00"
          (Tilt.Renderer.noFill
            (Tilt.Renderer.fill "#f00" Tilt.Renderer.testColorState))).fillColor = 0
      ∧ (Tilt.Math.heapGet
            (Tilt.Renderer.fill "#f00"
              (Tilt.Renderer.noFill
                (Tilt.Renderer.fill "#f00" Tilt.Renderer.testColorState))).cache
            (Tilt.Renderer.fill "#f00"
              (Tilt.Renderer.noFill
                (Tilt.Renderer.fill "#f00" Tilt.Renderer.testColorState))).fillColor).take 4
          = [some 0, some 0, some 0, some 0])
    ∧ ((Tilt.Renderer.stroke "#f00"
          (Tilt.Renderer.noFill
            (Tilt.Renderer.fill "#f00" Tilt.Renderer.testColorState))).strokeColor = 0
      ∧ (Tilt.Math.heapGet
            (Tilt.Renderer.stroke "#f00"
              (Tilt.Renderer.noFill
                (Tilt.Renderer.fill "#f00" Tilt.Renderer.testColorState))).cache
            (Tilt.Renderer.stroke "#f00"
              (Tilt.Renderer.noFill
                (Tilt.Renderer.fill "#f00" Tilt.Renderer.testColorState))).strokeColor).take 4
          = [some 0, some 0, some 0, some 0])
    ∧ ((Tilt.Renderer.tint "#f00"
          (Tilt.Renderer.noFill
            (Tilt.Renderer.fill "#f00" Tilt.Renderer.testColorState))).tintColor = 0
      ∧ (Tilt.Math.heapGet
            (Tilt.Renderer.tint "#f00"
              (Tilt.Renderer.noFill
                (Tilt.Renderer.fill "#f00" Tilt.Renderer.testColorState))).cache
            (Tilt.Renderer.tint "#f00"
              (Tilt.Renderer.noFill
                (Tilt.Renderer.fill "#f00" Tilt.Renderer.testColorState))).tintColor).take 4
          = [some 0, some 0, some 0, some 0]) :=
  c9_noFill_poisons_cached_color "#f00" Tilt.Renderer.testColorState 0 (by decide) (by decide)

open Tilt.Math in
/-- C4: the return code of intersectRayTriangle is exactly as claimed:
-1 precisely when the edge cross product (the normal n) is the zero
vector; otherwise, with a = -n.(pos - v0) and b = n.dir, if |b| < 1e-4
the code is 2 when a = 0 and 0 when a is nonzero; otherwise with
r = a / b the code is 0 when r < 0; otherwise the code is 0 when the
parametric coordinates satisfy s < 0 or s > 1 or t < 0 or s + t > 1, and
in all remaining cases the code is 1 and the intersection point
pos + r dir has been written to the out-parameter (a fresh point when
none was supplied). -/
theorem c4_intersectRayTriangle_code (v0 v1 v2 pos dir : Vec3 ℚ) (out : Option (Vec3 ℚ)) :
    ((intersectRayTriangle v0 v1 v2 ⟨pos, dir⟩ out).code = -1
      ↔ vec3cross (vec3subtract v1 v0) (vec3subtract v2 v0) = ⟨0, 0, 0⟩)
    ∧ (vec3cross (vec3subtract v1 v0) (vec3subtract v2 v0) ≠ ⟨0, 0, 0⟩ →
        |vec3dot (vec3cross (vec3subtract v1 v0) (vec3subtract v2 v0)) dir| < 1 / 10000 →
        ((-(vec3dot (vec3cross (vec3subtract v1 v0) (vec3subtract v2 v0))
              (vec3subtract pos v0)) = 0 →
            (intersectRayTriangle v0 v1 v2 ⟨pos, dir⟩ out).code = 2)
          ∧ (-(vec3dot (vec3cross (vec3subtract v1 v0) (vec3subtract v2 v0))
              (vec3subtract pos v0)) ≠ 0 →
            (intersectRayTriangle v0 v1 v2 ⟨pos, dir⟩ out).code = 0)))
    ∧ (vec3cross (vec3subtract v1 v0) (vec3subtract v2 v0) ≠ ⟨0, 0, 0⟩ →
        ¬(|vec3dot (vec3cross (vec3subtract v1 v0) (vec3subtract v2 v0)) dir| < 1 / 10000) →
        -(vec3dot (vec3cross (vec3subtract v1 v0) (vec3subtract v2 v0)) (vec3subtract pos v0))
            / vec3dot (vec3cross (vec3subtract v1 v0) (vec3subtract v2 v0)) dir < 0 →
        (intersectRayTriangle v0 v1 v2 ⟨pos, dir⟩ out).code = 0)
    ∧ (vec3cross (vec3subtract v1 v0) (vec3subtract v2 v0) ≠ ⟨0, 0, 0⟩ →
        ¬(|vec3dot (vec3cross (vec3subtract v1 v0) (vec3subtract v2 v0)) dir| < 1 / 10000) →
        ¬(-(vec3dot (vec3cross (vec3subtract v1 v0) (vec3subtract v2 v0))
              (vec3subtract pos v0))
            / vec3dot (vec3cross (vec3subtract v1 v0) (vec3subtract v2 v0)) dir < 0) →
        (letI u := vec3subtract v1 v0
         letI v := vec3subtract v2 v0
         letI n := vec3cross u v
         letI r := -(vec3dot n (vec3subtract pos v0)) / vec3dot n dir
         letI inter := vec3add pos (vec3scale dir r)
         letI w := vec3subtract inter v0
         letI D := vec3dot u v * vec3dot u v - vec3dot u u * vec3dot v v
         letI s := (vec3dot u v * vec3dot w v - vec3dot v v * vec3dot w u) / D
         letI t := (vec3dot u v * vec3dot w u - vec3dot u u * vec3dot w v) / D
         ((s < 0 ∨ s > 1 ∨ t < 0 ∨ s + t > 1) →
            (intersectRayTriangle v0 v1 v2 ⟨pos, dir⟩ out).code = 0)
         ∧ (¬(s < 0 ∨ s > 1 ∨ t < 0 ∨ s + t > 1) →
            (intersectRayTriangle v0 v1 v2 ⟨pos, dir⟩ out).code = 1
            ∧ (intersectRayTriangle v0 v1 v2 ⟨pos, dir⟩ out).intersection = inter))) := by
  have hseteq : ∀ w : Vec3 ℚ, w = (⟨0, 0, 0⟩ : Vec3 ℚ) ↔ (w.x = 0 ∧ w.y = 0 ∧ w.z = 0) := by
    rintro ⟨wx, wy, wz⟩
    simp [Tilt.Math.Vec3.mk.injEq]
  unfold Tilt.Math.intersectRayTriangle
  dsimp only
  split_ifs with h1 h2 h3 h4 h5 h6
  · simp_all
  · simp_all
  · simp_all
  · simp_all [hseteq]
  · refine ⟨by simp_all [hseteq], fun _ hb => absurd hb h2, fun _ _ hr => absurd hr h4,
      fun _ _ _ => ⟨fun hst => ?_, fun hst => absurd ?_ hst⟩⟩
    · rfl
    · rcases h5 with h | h
      · exact Or.inl h
      · exact Or.inr (Or.inl h)
  · refine ⟨by simp_all [hseteq], fun _ hb => absurd hb h2, fun _ _ hr => absurd hr h4,
      fun _ _ _ => ⟨fun hst => ?_, fun hst => absurd ?_ hst⟩⟩
    · rfl
    · rcases h6 with h | h
      · exact Or.inr (Or.inr (Or.inl h))
      · exact Or.inr (Or.inr (Or.inr h))
  · refine ⟨by simp_all [hseteq], fun _ hb => absurd hb h2, fun _ _ hr => absurd hr h4,
      fun _ _ _ => ⟨fun hst => ?_, fun _ => ⟨rfl, rfl⟩⟩⟩
    rcases hst with h | h | h | h
    · exact absurd (Or.inl h) h5
    · exact absurd (Or.inr h) h5
    · exact absurd (Or.inl h) h6
    · exact absurd (Or.inr h) h6

/-- Witness for C4: a ray through the unit right triangle hits it, code 1,
intersection (1/4, 1/4, 0), via the inside-branch of the theorem with all
side conditions checked concretely. -/
theorem c4_witness :
    (Tilt.Math.intersectRayTriangle (⟨0, 0, 0⟩ : Tilt.Math.Vec3 ℚ) ⟨1, 0, 0⟩ ⟨0, 1, 0⟩
        ⟨⟨1/4, 1/4, 1⟩, ⟨0, 0, -1⟩⟩ none).code = 1
    ∧ (Tilt.Math.intersectRayTriangle (⟨0, 0, 0⟩ : Tilt.Math.Vec3 ℚ) ⟨1, 0, 0⟩ ⟨0, 1, 0⟩
        ⟨⟨1/4, 1/4, 1⟩, ⟨0, 0, -1⟩⟩ none).intersection = ⟨1/4, 1/4, 0⟩ := by
  have h := (c4_intersectRayTriangle_code ⟨0, 0, 0⟩ ⟨1, 0, 0⟩ ⟨0, 1, 0⟩ ⟨1/4, 1/4, 1⟩
      ⟨0, 0, -1⟩ none).2.2.2
      (by norm_num [Tilt.Math.vec3cross, Tilt.Math.vec3subtract, Tilt.Math.Vec3.mk.injEq])
      (by norm_num [Tilt.Math.vec3dot, Tilt.Math.vec3cross, Tilt.Math.vec3subtract])
      (by norm_num [Tilt.Math.vec3dot, Tilt.Math.vec3cross, Tilt.Math.vec3subtract])
  have hin := h.2 (by
    norm_num [Tilt.Math.vec3dot, Tilt.Math.vec3cross, Tilt.Math.vec3subtract,
      Tilt.Math.vec3add, Tilt.Math.vec3scale])
  refine ⟨hin.1, hin.2.trans ?_⟩
  norm_num [Tilt.Math.vec3dot, Tilt.Math.vec3cross, Tilt.Math.vec3subtract,
    Tilt.Math.vec3add, Tilt.Math.vec3scale, Tilt.Math.Vec3.mk.injEq]

/-- C5: createRay unprojects both points and returns an object whose
position is the unprojected p0, whose lookAt is the unprojected p1, and
whose direction is the normalization of (unprojected p1 - unprojected
p0). (The source writes the unprojections in place into the caller's p0
and p1 arrays; here the unprojected points are the values those arrays
end up holding.) -/
theorem c5_createRay_fields (p0 p1 : Fin 3 → ℝ) (viewport : Fin 4 → ℝ)
    (mvMatrix projMatrix : Matrix (Fin 4) (Fin 4) ℝ) :
    (Tilt.Math.createRay p0 p1 viewport mvMatrix projMatrix).position
        = Tilt.Math.unproject p0 viewport mvMatrix projMatrix
    ∧ (Tilt.Math.createRay p0 p1 viewport mvMatrix projMatrix).lookAt
        = Tilt.Math.unproject p1 viewport mvMatrix projMatrix
    ∧ (Tilt.Math.createRay p0 p1 viewport mvMatrix projMatrix).direction
        = Tilt.Math.vec3normalize
            (Tilt.Math.vec3subtract
              (Tilt.Math.first3 (Tilt.Math.unproject p1 viewport mvMatrix projMatrix))
              (Tilt.Math.first3 (Tilt.Math.unproject p0 viewport mvMatrix projMatrix))) :=
  ⟨rfl, rfl, rfl⟩

namespace Tilt.Math

/-- The adjugate-based inverse used by the embedding agrees with
Mathlib's matrix inverse (both give the same junk on singular input). -/
theorem mat4inverse_eq_inv {K : Type} [Field K] (a : Matrix (Fin 4) (Fin 4) K) :
    mat4inverse a = a⁻¹ := by
  rw [Matrix.inv_def, Ring.inverse_eq_inv, mat4inverse, one_div]

end Tilt.Math

/-- C7 amended: unprojecting a window point and pushing the result back
through the forward project-and-divide pipeline recovers the point
exactly (over exact arithmetic), for any viewport with nonzero width and
height and any model-view/projection pair with invertible product,
provided additionally that the unprojected homogeneous w-coordinate is
nonzero (the claim as stated omits this hypothesis and fails without it,
see the counterexample). -/
theorem c7_unproject_roundtrip_amended (p : Fin 3 → ℚ) (vp : Fin 4 → ℚ)
    (mv proj : Matrix (Fin 4) (Fin 4) ℚ)
    (hz0 : 0 ≤ p 2) (hz1 : p 2 ≤ 1)
    (hdet : IsUnit (Tilt.Math.mat4multiply proj mv).det)
    (hvw : vp 2 ≠ 0) (hvh : vp 3 ≠ 0)
    (hw : Tilt.Math.unproject p vp mv proj 3 ≠ 0) :
    Tilt.Math.projectPoint
        ![Tilt.Math.unproject p vp mv proj 0,
          Tilt.Math.unproject p vp mv proj 1,
          Tilt.Math.unproject p vp mv proj 2] vp mv proj
      = ![p 0, p 1, p 2] := by
  set n : Fin 4 → ℚ :=
    ![(p 0 - vp 0) / vp 2 * 2 - 1, -((p 1 - vp 1) / vp 3 * 2 - 1), 2 * p 2 - 1, 1] with hn
  set t : Fin 4 → ℚ :=
    (Tilt.Math.mat4inverse (Tilt.Math.mat4multiply proj mv)).mulVec n with ht
  have hunp : Tilt.Math.unproject p vp mv proj
      = ![t 0 * (1 / t 3), t 1 * (1 / t 3), t 2 * (1 / t 3), 1 / t 3] := rfl
  have ht3 : t 3 ≠ 0 := by
    intro h0
    apply hw
    rw [hunp]
    show (1 : ℚ) / t 3 = 0
    rw [h0]
    norm_num
  have hwnz : (1 : ℚ) / t 3 ≠ 0 := one_div_ne_zero ht3
  rw [hunp]
  show Tilt.Math.projectPoint
      ![t 0 * (1 / t 3), t 1 * (1 / t 3), t 2 * (1 / t 3)] vp mv proj = ![p 0, p 1, p 2]
  have hvec4 : (![t 0 * (1 / t 3), t 1 * (1 / t 3), t 2 * (1 / t 3), 1] : Fin 4 → ℚ)
      = (1 / t 3) • t := by
    funext i
    fin_cases i
    · show t 0 * (1 / t 3) = (1 / t 3) * t 0
      ring
    · show t 1 * (1 / t 3) = (1 / t 3) * t 1
      ring
    · show t 2 * (1 / t 3) = (1 / t 3) * t 2
      ring
    · show (1 : ℚ) = (1 / t 3) * t 3
      field_simp
  have hc : (Tilt.Math.mat4multiply proj mv).mulVec
        ![t 0 * (1 / t 3), t 1 * (1 / t 3), t 2 * (1 / t 3), 1] = (1 / t 3) • n := by
    rw [hvec4, Matrix.mulVec_smul, ht, Tilt.Math.mat4inverse_eq_inv, Matrix.mulVec_mulVec,
      Matrix.mul_nonsing_inv _ hdet, Matrix.one_mulVec]
  unfold Tilt.Math.projectPoint
  dsimp only
  rw [show Tilt.Math.mat4multiplyVec4 (Tilt.Math.mat4multiply proj mv)
        ![(![t 0 * (1 / t 3), t 1 * (1 / t 3), t 2 * (1 / t 3)] : Fin 3 → ℚ) 0,
          ![t 0 * (1 / t 3), t 1 * (1 / t 3), t 2 * (1 / t 3)] 1,
          ![t 0 * (1 / t 3), t 1 * (1 / t 3), t 2 * (1 / t 3)] 2, 1]
      = (1 / t 3) • n from hc]
  have hs0 : ((1 / t 3) • n) 0 = (1 / t 3) * ((p 0 - vp 0) / vp 2 * 2 - 1) := rfl
  have hs1 : ((1 / t 3) • n) 1 = (1 / t 3) * (-((p 1 - vp 1) / vp 3 * 2 - 1)) := rfl
  have hs2 : ((1 / t 3) • n) 2 = (1 / t 3) * (2 * p 2 - 1) := rfl
  have hs3 : ((1 / t 3) • n) 3 = (1 / t 3) * 1 := rfl
  funext i
  fin_cases i
  · show vp 0 + (((1 / t 3) • n) 0 / ((1 / t 3) • n) 3 + 1) / 2 * vp 2 = p 0
    rw [hs0, hs3]
    rw [mul_one, mul_div_cancel_left₀ _ hwnz]
    field_simp
    ring
  · show vp 1 + (1 - ((1 / t 3) • n) 1 / ((1 / t 3) • n) 3) / 2 * vp 3 = p 1
    rw [hs1, hs3]
    rw [mul_one, mul_div_cancel_left₀ _ hwnz]
    field_simp
    ring
  · show (((1 / t 3) • n) 2 / ((1 / t 3) • n) 3 + 1) / 2 = p 2
    rw [hs2, hs3]
    rw [mul_one, mul_div_cancel_left₀ _ hwnz]
    ring

theorem vec4_apply_three {α : Type} (a b c d : α) : (![a, b, c, d] : Fin 4 → α) 3 = d := rfl

theorem vec4_apply_two {α : Type} (a b c d : α) : (![a, b, c, d] : Fin 4 → α) 2 = c := rfl

/-- Witness for C7 at identity matrices, viewport [0,0,2,2] and the
window point (3,4,1/2): all hypotheses hold (the unprojected w is 1) and
the round trip recovers the point. -/
theorem c7_witness :
    Tilt.Math.projectPoint
        ![Tilt.Math.unproject ![3, 4, 1/2] ![0, 0, 2, 2] 1 1 0,
          Tilt.Math.unproject ![3, 4, 1/2] ![0, 0, 2, 2] 1 1 1,
          Tilt.Math.unproject ![3, 4, 1/2] ![0, 0, 2, 2] 1 1 2]
        ![0, 0, 2, 2] (1 : Matrix (Fin 4) (Fin 4) ℚ) (1 : Matrix (Fin 4) (Fin 4) ℚ)
      = ![3, 4, 1/2] := by
  have hA1 : Tilt.Math.mat4inverse
      (Tilt.Math.mat4multiply (1 : Matrix (Fin 4) (Fin 4) ℚ) 1) = 1 := by
    rw [Tilt.Math.mat4inverse_eq_inv, Tilt.Math.mat4multiply, mul_one, inv_one]
  have hw : Tilt.Math.unproject (![3, 4, 1/2] : Fin 3 → ℚ) ![0, 0, 2, 2]
      (1 : Matrix (Fin 4) (Fin 4) ℚ) (1 : Matrix (Fin 4) (Fin 4) ℚ) 3 ≠ 0 := by
    unfold Tilt.Math.unproject Tilt.Math.mat4multiplyVec4
    rw [vec4_apply_three, hA1, Matrix.one_mulVec, vec4_apply_three]
    norm_num
  exact c7_unproject_roundtrip_amended ![3, 4, 1/2] ![0, 0, 2, 2] 1 1
    (by norm_num : (0 : ℚ) ≤ 1/2) (by norm_num : (1/2 : ℚ) ≤ 1)
    (by rw [Tilt.Math.mat4multiply, mul_one, Matrix.det_one]; exact isUnit_one)
    (by norm_num : (2 : ℚ) ≠ 0) (by norm_num : (2 : ℚ) ≠ 0) hw

/-- C7 as stated is false: with the invertible z/w-swapping projection,
identity model-view, unit viewport and window point (0, 0, 1/2) — inputs
satisfying every hypothesis the claim lists (z in [0,1], invertible
product, nonzero viewport extent) — the unprojected homogeneous w is
zero and the forward pipeline does not recover the point. -/
theorem c7_counterexample :
    IsUnit (Tilt.Math.mat4multiply Tilt.Math.swapZW (1 : Matrix (Fin 4) (Fin 4) ℚ)).det
    ∧ ((0 : ℚ) ≤ 1/2 ∧ (1/2 : ℚ) ≤ 1)
    ∧ ((1 : ℚ) ≠ 0 ∧ (1 : ℚ) ≠ 0)
    ∧ Tilt.Math.projectPoint
        ![Tilt.Math.unproject ![0, 0, 1/2] ![0, 0, 1, 1] 1 Tilt.Math.swapZW 0,
          Tilt.Math.unproject ![0, 0, 1/2] ![0, 0, 1, 1] 1 Tilt.Math.swapZW 1,
          Tilt.Math.unproject ![0, 0, 1/2] ![0, 0, 1, 1] 1 Tilt.Math.swapZW 2]
        ![0, 0, 1, 1] (1 : Matrix (Fin 4) (Fin 4) ℚ) Tilt.Math.swapZW
      ≠ ![0, 0, 1/2] := by
  have hmul : Tilt.Math.mat4multiply Tilt.Math.swapZW (1 : Matrix (Fin 4) (Fin 4) ℚ)
      = Tilt.Math.swapZW := by
    rw [Tilt.Math.mat4multiply, mul_one]
  have hright : Tilt.Math.swapZW * Tilt.Math.swapZW = 1 := by
    ext i j
    fin_cases i <;> fin_cases j <;>
      simp [Tilt.Math.swapZW, Matrix.mul_apply, Fin.sum_univ_four, Matrix.one_apply,
        Matrix.vecHead, Matrix.vecTail]
  have hAinv : Tilt.Math.mat4inverse
      (Tilt.Math.mat4multiply Tilt.Math.swapZW (1 : Matrix (Fin 4) (Fin 4) ℚ))
      = Tilt.Math.swapZW := by
    rw [hmul, Tilt.Math.mat4inverse_eq_inv, Matrix.inv_eq_right_inv hright]
  have hu : Tilt.Math.unproject (![0, 0, 1/2] : Fin 3 → ℚ) ![0, 0, 1, 1] 1 Tilt.Math.swapZW
      = ![0, 0, 0, 0] := by
    unfold Tilt.Math.unproject Tilt.Math.mat4multiplyVec4
    rw [hAinv]
    funext i
    fin_cases i <;>
      simp [Tilt.Math.swapZW, Matrix.mulVec, Matrix.dotProduct, Fin.sum_univ_four,
        Matrix.vecHead, Matrix.vecTail]
  rw [hu]
  refine ⟨?_, by norm_num, by norm_num, ?_⟩
  · rw [hmul]
    exact Matrix.isUnit_det_of_right_inverse hright
  · have hval : Tilt.Math.projectPoint ![(0 : ℚ), 0, 0] ![0, 0, 1, 1] 1 Tilt.Math.swapZW
        = ![1/2, 1/2, 1/2] := by
      unfold Tilt.Math.projectPoint Tilt.Math.mat4multiplyVec4
      rw [hmul]
      funext i
      fin_cases i <;>
        simp [Tilt.Math.swapZW, Matrix.mulVec, Matrix.dotProduct, Fin.sum_univ_four,
          Matrix.vecHead, Matrix.vecTail]
    have harg : (![(![(0:ℚ), 0, 0, 0] : Fin 4 → ℚ) 0, ![(0:ℚ), 0, 0, 0] 1,
        ![(0:ℚ), 0, 0, 0] 2] : Fin 3 → ℚ) = ![0, 0, 0] := by
      funext i
      fin_cases i <;> rfl
    rw [harg, hval]
    intro h
    have h0 := congrFun h 0
    norm_num at h0
